import Mathlib

/-!
Shallow embedding of the sniff orchestration core (Session Coordinator,
Workspace Provisioner, progress-to-activity mapping) together with proofs
of the specified properties.

Source files embedded:
- Coordinator (`handleAgentSession`, `stopSession`, `shortenPath`)
- `buildPromptFromSession` (linear agent-session module)
- `WorktreeManager.create` / `sanitizeId` (worktree module)
- `ClaudeRunner.run` / `ClaudeRunner.stop` abort-handle discipline

JavaScript strings are modelled as Lean `String` (lengths agree on ASCII);
JS truthiness tests on strings become emptiness tests, and optional fields
become `Option`.
-/

namespace Sniff

/-- Boolean prefix test on character lists, used to build a substring test
modelling the JavaScript `String.prototype.includes`. -/
def startsWithL : List Char → List Char → Bool
  | _, [] => true
  | [], _ :: _ => false
  | h :: hs, n :: ns => h = n && startsWithL hs ns

/-- Substring containment on character lists: `containsSubL hay needle` is
true iff `needle` occurs contiguously inside `hay` (the empty needle always
occurs), modelling the JavaScript `includes`. -/
def containsSubL : List Char → List Char → Bool
  | [], needle => needle.isEmpty
  | h :: hs, needle => startsWithL (h :: hs) needle || containsSubL hs needle

/-- Substring containment on strings, modelling `stdout.includes(path)` in
`WorktreeManager.create`. -/
def strContains (hay needle : String) : Bool :=
  containsSubL hay.data needle.data

/-- JavaScript `a || b` on strings: take the default when the first operand
is absent or empty (falsy). -/
def jsOrStr (o : Option String) (d : String) : String :=
  match o with
  | some s => if s = "" then d else s
  | none => d

/-- Character-list split on a separator character, modelling the JavaScript
`String.prototype.split` with a one-character separator: empty pieces are
kept, and the empty input yields one empty piece. -/
def splitOnCharL (sep : Char) : List Char → List (List Char)
  | [] => [[]]
  | c :: rest =>
    match splitOnCharL sep rest with
    | [] => [[c]]
    | h :: t => if c = sep then [] :: h :: t else (c :: h) :: t

/-- Split of a string on the slash character, modelling
`filePath.split('/')`. -/
def splitSlash (s : String) : List String :=
  (splitOnCharL '/' s.data).map String.mk

/-- Join with slashes, modelling `Array.prototype.join('/')`. -/
def joinSlash : List String → String
  | [] => ""
  | [s] => s
  | s :: rest => s ++ "/" ++ joinSlash (rest)

/-- Coordinator.shortenPath: show a path unchanged when it splits into at
most three segments on a slash, otherwise an ellipsis marker followed by the
last three segments (`segments.slice(-3).join('/')`). -/
def shortenPath (filePath : String) : String :=
  let segments := splitSlash filePath
  if segments.length ≤ 3 then filePath
  else ".../" ++ joinSlash (segments.drop (segments.length - 3))

/-- Characters kept by WorktreeManager.sanitizeId: the class [a-zA-Z0-9-_]. -/
def keepChar (c : Char) : Bool :=
  (c.isAlpha || c.isDigit) || (c = '-' || c = '_')

/-- WorktreeManager.sanitizeId: `issueId.replace(/[^a-zA-Z0-9-_]/g, '-')`,
every character outside the class replaced by a dash (the regex matches one
character at a time, so a global replace is a character map). -/
def sanitizeId (issueId : String) : String :=
  String.mk (issueId.data.map (fun c => if keepChar c then c else '-'))

/-- Path join as used by `join(this.basePath, sanitizedId)` on already
normalized segment-free inputs: base, separator, token. -/
def joinPath (base token : String) : String :=
  base ++ "/" ++ token

/-- Fuelled scan of the global regex replace `body.replace(/@\S+\s*/g, '')`:
at a position starting with an at sign that is immediately followed by at
least one non-whitespace character, the match consumes the at sign, the
maximal run of non-whitespace characters, and the maximal following run of
whitespace; elsewhere the character is kept and the scan advances. Every
step consumes at least one character, so fuel equal to the input length
(as supplied by stripMentionsL) never runs out. -/
def stripMentionsFuel : Nat → List Char → List Char
  | 0, _ => []
  | _ + 1, [] => []
  | fuel + 1, c :: rest =>
    if c = '@' && !(rest.takeWhile (fun ch => !ch.isWhitespace)).isEmpty then
      stripMentionsFuel fuel
        ((rest.dropWhile (fun ch => !ch.isWhitespace)).dropWhile (fun ch => ch.isWhitespace))
    else
      c :: stripMentionsFuel fuel rest

/-- Scan of the global mention replace over a character list. -/
def stripMentionsL (l : List Char) : List Char :=
  stripMentionsFuel l.length l

/-- Removal of every `@mention` token, modelling the JavaScript global
regex replace used on the triggering comment. -/
def stripMentions (s : String) : String :=
  String.mk (stripMentionsL s.data)

/-- Whitespace trim on both ends, modelling the JavaScript
`String.prototype.trim`. -/
def jsTrim (s : String) : String :=
  String.mk (((s.data.dropWhile Char.isWhitespace).reverse.dropWhile
    Char.isWhitespace).reverse)

/-- Issue data carried by an agent-session event. -/
structure AgentSessionIssue where
  id : String
  identifier : String
  title : String
  description : Option String
  teamId : String
deriving DecidableEq, Repr

/-- Comment data carried by an agent-session event. -/
structure AgentSessionComment where
  id : String
  body : String
  userId : String
deriving DecidableEq, Repr

/-- Parsed agent-session event (the fields `handleAgentSession` and
`buildPromptFromSession` consume). -/
structure AgentSessionEvent where
  sessionId : String
  action : String
  issue : AgentSessionIssue
  comment : Option AgentSessionComment
  promptContext : String
  signal : Option String
deriving DecidableEq, Repr

/-- buildPromptFromSession: title line, then a description section when the
description is present (non-empty), then the user request with mentions
stripped and trimmed when that leaves a non-empty message, then the prompt
context when non-empty. -/
def buildPromptFromSession (ev : AgentSessionEvent) : String :=
  let message := "Issue: " ++ ev.issue.identifier ++ " - " ++ ev.issue.title ++ "\n\n"
  let message :=
    match ev.issue.description with
    | some d => if d ≠ "" then message ++ "Description:\n" ++ d ++ "\n\n" else message
    | none => message
  let message :=
    match ev.comment with
    | some c =>
      if c.body ≠ "" then
        let userMessage := jsTrim (stripMentions c.body)
        if userMessage ≠ "" then message ++ "User request:\n" ++ userMessage ++ "\n\n"
        else message
      else message
    | none => message
  if ev.promptContext ≠ "" then message ++ "Context:\n" ++ ev.promptContext ++ "\n"
  else message

/-- Activities sent to the Linear client (the Activity Sink). Each
constructor corresponds to one client operation: sendThought,
sendEphemeralThought, sendAction, sendResponse, sendError. -/
inductive Activity where
  | thought (body : String)
  | ephemeralThought (body : String)
  | action (label parameter : String)
  | response (body : String)
  | err (body : String)
deriving DecidableEq, Repr

/-- Tool input carried in progress metadata (the fields the Coordinator
reads: description and subagent type for Task, file path for Edit/Write). -/
structure ToolInput where
  description : Option String
  subagent_type : Option String
  file_path : Option String
deriving DecidableEq, Repr

/-- Progress metadata attached to a tool-use event by the runner. -/
structure ProgressMetadata where
  tool : Option String
  input : Option ToolInput
deriving DecidableEq, Repr

/-- Progress events streamed by the Execution Capability: the four-way tag
of AgentProgress (tool_use, output, thinking, error) with content and
optional metadata. -/
inductive Progress where
  | tool_use (content : String) (metadata : Option ProgressMetadata)
  | output (content : String)
  | thinking (content : String)
  | err (content : String)
deriving DecidableEq, Repr

/-- Tool name resolution `(metadata?.tool as string) || progress.content`
in the Coordinator progress callback. -/
def toolNameOf (metadata : Option ProgressMetadata) (content : String) : String :=
  jsOrStr (metadata.bind (fun m => m.tool)) content

/-- Tool input resolution `metadata?.input` in the progress callback. -/
def toolInputOf (metadata : Option ProgressMetadata) : Option ToolInput :=
  metadata.bind (fun m => m.input)

/-- Progress callback of Coordinator.handleAgentSession as a mapping from
one progress event to the activity it sends (`none` when the event is
silently dropped). Task tool use becomes a persistent action with the
subtask description; Edit/Write becomes a persistent action with the
operation kind and shortened file path; any other tool use and thinking
become the fixed ephemeral thought; output longer than 20 characters
becomes a persistent thought; error events and short output send nothing. -/
def progressToActivity (p : Progress) : Option Activity :=
  match p with
  | .tool_use content metadata =>
    let toolName := toolNameOf metadata content
    let input := toolInputOf metadata
    if toolName = "Task" then
      some (.action (jsOrStr (input.bind (fun i => i.description)) "Running subtask")
        (jsOrStr (input.bind (fun i => i.subagent_type)) ""))
    else if toolName = "Edit" || toolName = "Write" then
      let filePath := input.bind (fun i => i.file_path)
      let actionWord := if toolName = "Edit" then "Editing" else "Writing"
      some (.action actionWord
        (match filePath with
         | some fp => if fp = "" then "" else shortenPath fp
         | none => ""))
    else
      some (.ephemeralThought "Nose to the ground...")
  | .output content =>
    if content ≠ "" ∧ 20 < content.length then some (.thought content) else none
  | .thinking _ => some (.ephemeralThought "Nose to the ground...")
  | .err _ => none

/-- Behavior of the backing VCS for one WorktreeManager.create invocation:
the outcome of `git worktree list --porcelain` in the target repository and
the outcomes of the two `git worktree add` attempts (new branch, then
existing branch), each a function of the branch name and worktree path
passed on the command line. -/
structure VcsEnv where
  listOutput : Except Unit String
  addNewBranch : String → String → Except String Unit
  addExistingBranch : String → String → Except String Unit

/-- WorktreeManager.create, instrumented with a flag recording whether any
`git worktree add` was attempted. The canonical path is the base directory
joined with the sanitized issue id; when the live `git worktree list`
output already records that path the function returns it unchanged without
provisioning; otherwise it tries to add a worktree on a new branch, falls
back to attaching to the existing branch, and raises only when both
attempts fail. -/
def worktreeCreate (env : VcsEnv) (basePath issueId : String)
    (branch : Option String) : Except String String × Bool :=
  let sanitizedId := sanitizeId issueId
  let worktreePath := joinPath basePath sanitizedId
  let branchName := branch.getD ("sniff/" ++ sanitizedId)
  let registryHit :=
    match env.listOutput with
    | .ok out => strContains out worktreePath
    | .error _ => false
  if registryHit then (.ok worktreePath, false)
  else
    match env.addNewBranch branchName worktreePath with
    | .ok _ => (.ok worktreePath, true)
    | .error e =>
      match env.addExistingBranch branchName worktreePath with
      | .ok _ => (.ok worktreePath, true)
      | .error _ => (.error ("Failed to create worktree: " ++ e), true)

/-- Claude runner options of an agent definition (`agent.runner.claude`),
restricted to the field the embedded pipeline observes. -/
structure ClaudeOptions where
  permissionMode : Option String
deriving DecidableEq, Repr

/-- Agent definition as consumed by the Coordinator: `getRunnerOptions`
returns `agent.runner.claude ?? null`, so the pipeline only observes
whether Claude options are present. -/
structure AgentConfig where
  claudeOptions : Option ClaudeOptions
deriving DecidableEq, Repr

/-- Runner context fields the embedded pipeline observes (`buildContext`
copies the agent options through; the claims concern the working
directory and the defaulted permission mode). -/
structure RunnerContext where
  workingDirectory : String
  permissionMode : String
deriving DecidableEq, Repr

/-- Runner result: success flag, output and error text (absent JavaScript
fields modelled as the empty string, which is what the falsy defaulting
in the Coordinator tests for). -/
structure RunResult where
  success : Bool
  output : String
  error : String
deriving DecidableEq, Repr

/-- Behavior of the external collaborators during one handleAgentSession
invocation: the configured agents, the ambient Linear token, the outcome
of worktree provisioning, of attachment prefetching, and of the runner
run (with the progress events it delivers to the callback), and the
client's reaction to each activity send (ok or thrown message). -/
structure CoordEnv where
  agents : List AgentConfig
  linearAccessToken : Option String
  repositoryPath : String
  worktreeResult : Except String String
  prefetchResult : Except String String
  runOutcome : Except String RunResult
  progressEvents : List Progress
  clientSend : Activity → Except String Unit

/-- Observable outcome of one handleAgentSession invocation: the registry
after the call, the activities whose send was attempted in order, whether
runner.stop was invoked, whether the session was registered, whether the
runner run was invoked and with which working directory, and the exception
propagated to the caller (if any). -/
structure HandleResult where
  registry : List String
  sent : List Activity
  stopCalled : Bool
  registered : Bool
  runInvoked : Bool
  runDir : Option String
  thrown : Option String
deriving DecidableEq, Repr

/-- Registry insertion, modelling `Map.set` on the key set: a present key
keeps the key set unchanged, an absent key is added. -/
def regInsert (sid : String) (reg : List String) : List String :=
  if sid ∈ reg then reg else sid :: reg

/-- Registry removal, modelling `Map.delete` on the key set. -/
def regErase (sid : String) (reg : List String) : List String :=
  reg.filter (fun x => x ≠ sid)

/-- Coordinator.stopSession: when the session id is registered, invoke
runner.stop (ClaudeRunner.stop never throws), delete the registry entry,
and send the terminal response, whose failure propagates; when the id is
not registered, do nothing. -/
def stopSession (env : CoordEnv) (sid : String) (reg : List String) : HandleResult :=
  if sid ∈ reg then
    let reg1 := regErase sid reg
    let act := Activity.response "Stopped as requested."
    match env.clientSend act with
    | .ok _ =>
      { registry := reg1, sent := [act], stopCalled := true, registered := false,
        runInvoked := false, runDir := none, thrown := none }
    | .error e =>
      { registry := reg1, sent := [act], stopCalled := true, registered := false,
        runInvoked := false, runDir := none, thrown := some e }
  else
    { registry := reg, sent := [], stopCalled := false, registered := false,
      runInvoked := false, runDir := none, thrown := none }

/-- Intermediate outcome of the try-block body of handleAgentSession:
either a normal return or an exception carried to the top-level catch,
both with the state accumulated so far. -/
inductive PipeOut where
  | done (registry : List String) (sent : List Activity) (registered : Bool)
      (runInvoked : Bool) (runDir : Option String)
  | failed (registry : List String) (sent : List Activity) (registered : Bool)
      (runInvoked : Bool) (runDir : Option String) (msg : String)

/-- Try-block body of Coordinator.handleAgentSession for a non-stop event:
immediate acknowledgment thought, agent lookup, worktree provisioning with
fallback to the repository root, context building, attachment prefetch with
swallowed failure, second thought, registration, the runner run (the
progress callback sends are fire-and-forget), the terminal response or
error, and the guaranteed registry cleanup. -/
def runPipeline (env : CoordEnv) (ev : AgentSessionEvent) (reg : List String) : PipeOut :=
  let a1 := Activity.thought "Sniffing out the issue..."
  match env.clientSend a1 with
  | .error e => .failed reg [a1] false false none e
  | .ok _ =>
    match env.agents.head? with
    | none =>
      let a2 := Activity.err "No agent configured"
      match env.clientSend a2 with
      | .ok _ => .done reg [a1, a2] false false none
      | .error e => .failed reg [a1, a2] false false none e
    | some agent =>
      let a3 := Activity.action "Preparing" "the hunting grounds"
      let worktreePath :=
        match env.clientSend a3 with
        | .error _ => env.repositoryPath
        | .ok _ =>
          match env.worktreeResult with
          | .ok p => p
          | .error _ => env.repositoryPath
      match agent.claudeOptions with
      | none =>
        let a4 := Activity.err "No runner configured for agent"
        match env.clientSend a4 with
        | .ok _ => .done reg [a1, a3, a4] false false none
        | .error e => .failed reg [a1, a3, a4] false false none e
      | some options =>
        let context : RunnerContext :=
          { workingDirectory := worktreePath,
            permissionMode := options.permissionMode.getD "acceptEdits" }
        let attachmentsContext :=
          match env.linearAccessToken with
          | some _ =>
            match env.prefetchResult with
            | .ok s => s
            | .error _ => ""
          | none => ""
        let _message := buildPromptFromSession ev ++ attachmentsContext
        let a5 := Activity.thought "Following the trail..."
        match env.clientSend a5 with
        | .error e => .failed reg [a1, a3, a5] false false none e
        | .ok _ =>
          let reg1 := regInsert ev.sessionId reg
          let base := [a1, a3, a5] ++ env.progressEvents.filterMap progressToActivity
          match env.runOutcome with
          | .error e =>
            .failed (regErase ev.sessionId reg1) base true true
              (some context.workingDirectory) e
          | .ok result =>
            let terminal :=
              if result.success then
                Activity.response (if result.output = "" then "Tracked it down." else result.output)
              else
                Activity.err (if result.error = "" then "Unknown error occurred" else result.error)
            match env.clientSend terminal with
            | .ok _ =>
              .done (regErase ev.sessionId reg1) (base ++ [terminal]) true true
                (some context.workingDirectory)
            | .error e =>
              .failed (regErase ev.sessionId reg1) (base ++ [terminal]) true true
                (some context.workingDirectory) e

/-- Coordinator.handleAgentSession: a stop signal is routed to stopSession
before the try block (so its failures propagate); every other event runs
the pipeline under the top-level catch, which converts an escaped
exception into a best-effort error activity and swallows even the failure
of that send. -/
def handleAgentSession (env : CoordEnv) (ev : AgentSessionEvent)
    (reg : List String) : HandleResult :=
  if ev.signal = some "stop" then stopSession env ev.sessionId reg
  else
    match runPipeline env ev reg with
    | .done r s rg ri rd =>
      { registry := r, sent := s, stopCalled := false, registered := rg,
        runInvoked := ri, runDir := rd, thrown := none }
    | .failed r s rg ri rd msg =>
      let ae := Activity.err ("Processing failed: " ++ msg)
      let _ := env.clientSend ae
      { registry := r, sent := s ++ [ae], stopCalled := false, registered := rg,
        runInvoked := ri, runDir := rd, thrown := none }

/-- State of the Coordinator together with its single shared ClaudeRunner:
the identity of the shared runner object, the registry mapping session id
to the runner reference stored in its entry (`{ runner: this.runner }`),
and the runner's current abort handle (`this.abortController`, replaced at
every run start and cleared by stop). -/
structure SessionMachine where
  sharedRunner : Nat
  registry : List (String × Nat)
  abortHandle : Option Nat
deriving DecidableEq, Repr

/-- Initial state: empty registry, no abort handle. -/
def initSessionMachine (r : Nat) : SessionMachine :=
  { sharedRunner := r, registry := [], abortHandle := none }

/-- Atomic interleaving events for concurrent sessions: a run start for a
session id (registry set plus the fresh AbortController installed by
ClaudeRunner.run), or a stop request for a session id. -/
inductive SessionOp where
  | start (sid : String) (handleId : Nat)
  | stopReq (sid : String)
deriving DecidableEq, Repr

/-- One step of the session machine; the second component records which
abort handle ClaudeRunner.stop aborted (none when no stop happened).
A run start stores the shared runner in the registry entry and installs
the run's fresh abort handle; a stop request for a registered id calls
stop on the entry's runner, which aborts that runner's current handle,
then deletes the entry. -/
def applySessionOp (st : SessionMachine) : SessionOp → SessionMachine × Option Nat
  | .start sid handleId =>
    ({ sharedRunner := st.sharedRunner,
       registry := (sid, st.sharedRunner) :: st.registry.filter (fun e => e.1 ≠ sid),
       abortHandle := some handleId }, none)
  | .stopReq sid =>
    if (st.registry.find? (fun e => e.1 = sid)).isSome then
      ({ sharedRunner := st.sharedRunner,
         registry := st.registry.filter (fun e => e.1 ≠ sid),
         abortHandle := none }, st.abortHandle)
    else (st, none)

/-- Fold of session-machine steps over a list of operations. -/
def applySessionOps (st : SessionMachine) (ops : List SessionOp) : SessionMachine :=
  ops.foldl (fun s op => (applySessionOp s op).1) st

/-- Comment stripped of mentions and trimmed, as computed for the user
request section; the empty string when no comment is attached. -/
def strippedComment (ev : AgentSessionEvent) : String :=
  match ev.comment with
  | some c => jsTrim (stripMentions c.body)
  | none => ""

/-- C5: the path-shortening function is the identity on paths with at most
3 segments; on longer paths it returns the ellipsis marker followed by the
last 3 segments; in particular /a/b/c/d/file.ts renders as .../c/d/file.ts. -/
theorem shortenPath_spec (p : String) :
    ((splitSlash p).length ≤ 3 → shortenPath p = p) ∧
    (3 < (splitSlash p).length →
      shortenPath p =
        ".../" ++ joinSlash ((splitSlash p).drop ((splitSlash p).length - 3))) ∧
    shortenPath "/a/b/c/d/file.ts" = ".../c/d/file.ts" := by
  refine ⟨fun h => ?_, fun h => ?_, by decide⟩
  · simp only [shortenPath]
    rw [if_pos h]
  · simp only [shortenPath]
    rw [if_neg (by omega)]

/-- Witness for shortenPath_spec: both branches applied at concrete paths. -/
theorem shortenPath_spec_witness :
    shortenPath "a/b" = "a/b" ∧ shortenPath "/a/b/c/d/file.ts" =
      ".../" ++ joinSlash ((splitSlash "/a/b/c/d/file.ts").drop
        ((splitSlash "/a/b/c/d/file.ts").length - 3)) :=
  ⟨(shortenPath_spec "a/b").1 (by decide),
   (shortenPath_spec "/a/b/c/d/file.ts").2.1 (by decide)⟩

/-- C10: a progress event tagged as an error produces no activity, and an
output event whose content is empty or of length at most 20 produces no
activity; both are silently dropped by the progress callback. -/
theorem dropped_progress_events :
    (∀ c, progressToActivity (.err c) = none) ∧
    (∀ c, c = "" ∨ c.length ≤ 20 → progressToActivity (.output c) = none) := by
  constructor
  · intro c
    rfl
  · intro c h
    simp only [progressToActivity]
    rw [if_neg]
    rintro ⟨hne, hlen⟩
    rcases h with h | h
    · exact hne h
    · omega

/-- Witness for dropped_progress_events: an error event and a short output
event both map to no activity. -/
theorem dropped_progress_events_witness :
    progressToActivity (.err "broken") = none ∧
    progressToActivity (.output "hi") = none :=
  ⟨dropped_progress_events.1 "broken",
   dropped_progress_events.2 "hi" (Or.inr (by decide))⟩

/-- C6: the progress-to-activity mapping sends exactly the dictated
activity: a Task tool use yields a persistent action labeled with the
subtask's stated purpose; an Edit or Write tool use yields a persistent
action with the operation kind and shortened path; every other tool use
yields the fixed ephemeral thought; an output longer than the threshold
yields a persistent thought carrying the content; a thinking event yields
the same ephemeral thought. -/
theorem progress_mapping_spec :
    (∀ content metadata d,
      toolNameOf metadata content = "Task" →
      (toolInputOf metadata).bind (fun i => i.description) = some d → d ≠ "" →
      progressToActivity (.tool_use content metadata) =
        some (.action d
          (jsOrStr ((toolInputOf metadata).bind (fun i => i.subagent_type)) ""))) ∧
    (∀ content metadata fp,
      toolNameOf metadata content = "Edit" →
      (toolInputOf metadata).bind (fun i => i.file_path) = some fp → fp ≠ "" →
      progressToActivity (.tool_use content metadata) =
        some (.action "Editing" (shortenPath fp))) ∧
    (∀ content metadata fp,
      toolNameOf metadata content = "Write" →
      (toolInputOf metadata).bind (fun i => i.file_path) = some fp → fp ≠ "" →
      progressToActivity (.tool_use content metadata) =
        some (.action "Writing" (shortenPath fp))) ∧
    (∀ content metadata,
      toolNameOf metadata content ≠ "Task" →
      toolNameOf metadata content ≠ "Edit" →
      toolNameOf metadata content ≠ "Write" →
      progressToActivity (.tool_use content metadata) =
        some (.ephemeralThought "Nose to the ground...")) ∧
    (∀ content, 20 < content.length →
      progressToActivity (.output content) = some (.thought content)) ∧
    (∀ content,
      progressToActivity (.thinking content) =
        some (.ephemeralThought "Nose to the ground...")) := by
  refine ⟨?_, ?_, ?_, ?_, ?_, fun _ => rfl⟩
  · intro content metadata d htool hdesc hne
    simp [progressToActivity, htool, hdesc, jsOrStr, hne]
  · intro content metadata fp htool hfp hne
    simp [progressToActivity, htool, hfp, hne]
  · intro content metadata fp htool hfp hne
    simp [progressToActivity, htool, hfp, hne]
  · intro content metadata h1 h2 h3
    simp [progressToActivity, h1, h2, h3]
  · intro content hlen
    simp only [progressToActivity]
    rw [if_pos]
    refine ⟨?_, hlen⟩
    intro hc
    rw [hc] at hlen
    simp at hlen

/-- Witness for progress_mapping_spec: each rule applied at a concrete
progress event. -/
theorem progress_mapping_spec_witness :
    progressToActivity
      (.tool_use "Task" (some ⟨some "Task", some ⟨some "explore the code", some "general", none⟩⟩)) =
      some (.action "explore the code"
        (jsOrStr ((toolInputOf (some ⟨some "Task", some ⟨some "explore the code", some "general", none⟩⟩)).bind
          (fun i => i.subagent_type)) "")) ∧
    progressToActivity
      (.tool_use "Edit" (some ⟨some "Edit", some ⟨none, none, some "/a/b/c/d/file.ts"⟩⟩)) =
      some (.action "Editing" (shortenPath "/a/b/c/d/file.ts")) ∧
    progressToActivity
      (.tool_use "Write" (some ⟨some "Write", some ⟨none, none, some "/x/y.ts"⟩⟩)) =
      some (.action "Writing" (shortenPath "/x/y.ts")) ∧
    progressToActivity (.tool_use "Read" (some ⟨some "Read", none⟩)) =
      some (.ephemeralThought "Nose to the ground...") ∧
    progressToActivity (.output "a rather long explanation of the fix") =
      some (.thought "a rather long explanation of the fix") :=
  ⟨progress_mapping_spec.1 "Task" _ "explore the code" (by decide) rfl (by decide),
   progress_mapping_spec.2.1 "Edit" _ "/a/b/c/d/file.ts" (by decide) rfl (by decide),
   progress_mapping_spec.2.2.1 "Write" _ "/x/y.ts" (by decide) rfl (by decide),
   progress_mapping_spec.2.2.2.1 "Read" _ (by decide) (by decide) (by decide),
   progress_mapping_spec.2.2.2.2.1 _ (by decide)⟩

/-- Stripping and trimming the empty comment body yields the empty
string. -/
theorem jsTrim_stripMentions_empty : jsTrim (stripMentions "") = "" := rfl

/-- C7: the outbound message is the title line, then the description
section exactly when a description is present, then the stripped
triggering message exactly when a non-empty message remains, then the
thread context; with no description, no comment and no context the
message is only the title line and contains no Description section. -/
theorem buildPrompt_spec :
    (∀ ev : AgentSessionEvent,
      buildPromptFromSession ev =
        "Issue: " ++ ev.issue.identifier ++ " - " ++ ev.issue.title ++ "\n\n"
        ++ (if ev.issue.description.getD "" ≠ "" then
              "Description:\n" ++ ev.issue.description.getD "" ++ "\n\n" else "")
        ++ (if strippedComment ev ≠ "" then
              "User request:\n" ++ strippedComment ev ++ "\n\n" else "")
        ++ (if ev.promptContext ≠ "" then
              "Context:\n" ++ ev.promptContext ++ "\n" else "")) ∧
    (∀ ev : AgentSessionEvent,
      ev.issue.description = none → ev.comment = none → ev.promptContext = "" →
      buildPromptFromSession ev =
        "Issue: " ++ ev.issue.identifier ++ " - " ++ ev.issue.title ++ "\n\n") ∧
    strContains
      (buildPromptFromSession
        ⟨"s", "created", ⟨"i1", "ABC-1", "Add tests", none, "t"⟩, none, "", none⟩)
      "Description:" = false := by
  refine ⟨?_, ?_, by decide⟩
  · intro ev
    obtain ⟨sid, act, ⟨iid, idf, ttl, desc, tm⟩, cmt, ctx, sig⟩ := ev
    cases desc <;> cases cmt <;>
      simp only [buildPromptFromSession, strippedComment, Option.getD_none,
        Option.getD_some, ne_eq, eq_self_iff_true, not_true_eq_false,
        if_false, ite_false] <;>
      split_ifs <;>
      simp_all only [jsTrim_stripMentions_empty, String.append_assoc,
        String.append_empty, ne_eq, not_true_eq_false, not_false_eq_true,
        not_not, ite_true, ite_false, if_true, if_false]
  · intro ev hdesc hcmt hctx
    obtain ⟨sid, act, ⟨iid, idf, ttl, desc, tm⟩, cmt, ctx, sig⟩ := ev
    simp only at hdesc hcmt hctx
    subst hdesc hcmt hctx
    simp [buildPromptFromSession]

/-- Witness for buildPrompt_spec: both universally quantified parts applied
at a concrete event with no description, comment or context. -/
theorem buildPrompt_spec_witness :
    buildPromptFromSession
      ⟨"s", "created", ⟨"i1", "ABC-1", "Add tests", none, "t"⟩, none, "", none⟩ =
      "Issue: " ++ "ABC-1" ++ " - " ++ "Add tests" ++ "\n\n" :=
  buildPrompt_spec.2.1
    ⟨"s", "created", ⟨"i1", "ABC-1", "Add tests", none, "t"⟩, none, "", none⟩
    rfl rfl rfl

/-- Every character of a sanitized identifier lies in the kept class. -/
theorem sanitizeId_keeps (issueId : String) :
    ∀ c ∈ (sanitizeId issueId).data, keepChar c = true := by
  intro c hc
  simp only [sanitizeId, List.mem_map] at hc
  obtain ⟨c0, _, hc0⟩ := hc
  subst hc0
  by_cases h : keepChar c0 = true
  · simp [h]
  · simp only [h, Bool.false_eq_true, if_false]
    rfl

/-- When the live worktree registry output records the canonical path,
create returns it unchanged and attempts no provisioning. -/
theorem worktreeCreate_hit (env : VcsEnv) (basePath issueId out : String)
    (hlist : env.listOutput = .ok out)
    (hcont : strContains out (joinPath basePath (sanitizeId issueId)) = true) :
    worktreeCreate env basePath issueId none =
      (.ok (joinPath basePath (sanitizeId issueId)), false) := by
  simp only [worktreeCreate, hlist, hcont, if_true]

/-- A successful create always returns the canonical path. -/
theorem worktreeCreate_ok_path (env : VcsEnv) (basePath issueId p : String)
    (hp : (worktreeCreate env basePath issueId none).1 = .ok p) :
    p = joinPath basePath (sanitizeId issueId) := by
  simp only [worktreeCreate] at hp
  split at hp
  · injection hp with h
    exact h.symm
  · split at hp
    · injection hp with h
      exact h.symm
    · split at hp
      · injection hp with h
        exact h.symm
      · exact absurd hp (by simp)

/-- C4: acquire computes the canonical path as the fixed base directory
joined with the sanitized identifier; it returns that path unchanged
without provisioning exactly when the live VCS worktree registry already
records the path; every character of the sanitized identifier lies in
[a-zA-Z0-9-_]; and a second acquire against a VCS whose registry records
the path returned by a successful first acquire returns the same path
without error and without provisioning. -/
theorem worktree_create_spec (env : VcsEnv) (basePath issueId : String) :
    ((sanitizeId issueId).data =
      issueId.data.map (fun c => if keepChar c then c else '-')) ∧
    (∀ c ∈ (sanitizeId issueId).data, keepChar c = true) ∧
    ((worktreeCreate env basePath issueId none).2 = false ↔
      ∃ out, env.listOutput = .ok out ∧
        strContains out (joinPath basePath (sanitizeId issueId)) = true) ∧
    (∀ out, env.listOutput = .ok out →
      strContains out (joinPath basePath (sanitizeId issueId)) = true →
      (worktreeCreate env basePath issueId none).1 =
        .ok (joinPath basePath (sanitizeId issueId))) ∧
    (∀ p, (worktreeCreate env basePath issueId none).1 = .ok p →
      p = joinPath basePath (sanitizeId issueId)) ∧
    (∀ (env2 : VcsEnv) (p : String) (out2 : String),
      (worktreeCreate env basePath issueId none).1 = .ok p →
      env2.listOutput = .ok out2 → strContains out2 p = true →
      (worktreeCreate env2 basePath issueId none).1 = .ok p ∧
      (worktreeCreate env2 basePath issueId none).2 = false) := by
  refine ⟨rfl, sanitizeId_keeps issueId, ?_, ?_, worktreeCreate_ok_path env basePath issueId, ?_⟩
  · constructor
    · intro hflag
      simp only [worktreeCreate] at hflag
      revert hflag
      split
      · rename_i hreg
        intro _
        revert hreg
        split
        · rename_i out hout
          intro h
          exact ⟨out, hout, h⟩
        · intro h
          exact absurd h (by simp)
      · split
        · intro h
          exact absurd h (by simp)
        · split <;> intro h <;> exact absurd h (by simp)
    · rintro ⟨out, hlist, hcont⟩
      rw [worktreeCreate_hit env basePath issueId out hlist hcont]
  · intro out hlist hcont
    rw [worktreeCreate_hit env basePath issueId out hlist hcont]
  · intro env2 p out2 h1 hlist2 hcont2
    have hp := worktreeCreate_ok_path env basePath issueId p h1
    subst hp
    rw [worktreeCreate_hit env2 basePath issueId out2 hlist2 hcont2]
    exact ⟨rfl, rfl⟩

/-- Witness for worktree_create_spec: a VCS whose registry already records
the canonical path for work item ABC-1, followed by a second acquire. -/
theorem worktree_create_spec_witness :
    (worktreeCreate
      ⟨.ok "worktree /base/ABC-1\nbranch refs/heads/sniff/ABC-1\n",
        fun _ _ => .error "boom", fun _ _ => .error "boom2"⟩
      "/base" "ABC-1" none).1 = .ok "/base/ABC-1" ∧
    (worktreeCreate
      ⟨.ok "worktree /base/ABC-1\nbranch refs/heads/sniff/ABC-1\n",
        fun _ _ => .error "boom", fun _ _ => .error "boom2"⟩
      "/base" "ABC-1" none).2 = false :=
  (worktree_create_spec
    ⟨.ok "worktree /base/ABC-1\nbranch refs/heads/sniff/ABC-1\n",
      fun _ _ => .error "boom", fun _ _ => .error "boom2"⟩
    "/base" "ABC-1").2.2.2.2.2
    ⟨.ok "worktree /base/ABC-1\nbranch refs/heads/sniff/ABC-1\n",
      fun _ _ => .error "boom", fun _ _ => .error "boom2"⟩
    "/base/ABC-1" "worktree /base/ABC-1\nbranch refs/heads/sniff/ABC-1\n"
    rfl rfl (by decide)

/-- A session id is never a member of its own registry erasure. -/
theorem not_mem_regErase (sid : String) (reg : List String) :
    sid ∉ regErase sid reg := by
  simp [regErase, List.mem_filter]

/-- Registry component of a pipeline outcome. -/
def pipeRegistry : PipeOut → List String
  | .done r _ _ _ _ => r
  | .failed r _ _ _ _ _ => r

/-- Registered flag of a pipeline outcome. -/
def pipeRegistered : PipeOut → Bool
  | .done _ _ rg _ _ => rg
  | .failed _ _ rg _ _ _ => rg

/-- Run-invoked flag of a pipeline outcome. -/
def pipeRun : PipeOut → Bool
  | .done _ _ _ ri _ => ri
  | .failed _ _ _ ri _ _ => ri

/-- On a non-stop event the handle result carries the pipeline's registry
and flags (the top-level catch only adds the best-effort error send). -/
theorem handle_pipe_fields (env : CoordEnv) (ev : AgentSessionEvent)
    (reg : List String) (h : ev.signal ≠ some "stop") :
    (handleAgentSession env ev reg).registry = pipeRegistry (runPipeline env ev reg) ∧
    (handleAgentSession env ev reg).registered = pipeRegistered (runPipeline env ev reg) ∧
    (handleAgentSession env ev reg).runInvoked = pipeRun (runPipeline env ev reg) := by
  unfold handleAgentSession
  rw [if_neg h]
  rcases runPipeline env ev reg with ⟨r, s, rg, ri, rd⟩ | ⟨r, s, rg, ri, rd, m⟩
  · exact ⟨rfl, rfl, rfl⟩
  · exact ⟨rfl, rfl, rfl⟩

/-- The pipeline leaves the registry unchanged or removes the session id
after having inserted it. -/
theorem runPipeline_registry_cases (env : CoordEnv) (ev : AgentSessionEvent)
    (reg : List String) :
    pipeRegistry (runPipeline env ev reg) = reg ∨
    pipeRegistry (runPipeline env ev reg) =
      regErase ev.sessionId (regInsert ev.sessionId reg) := by
  unfold runPipeline
  simp only []
  repeat' split
  all_goals simp [pipeRegistry]

/-- Whenever the pipeline invoked the run, it had registered the session. -/
theorem runPipeline_run_registered (env : CoordEnv) (ev : AgentSessionEvent)
    (reg : List String) :
    pipeRun (runPipeline env ev reg) = true →
    pipeRegistered (runPipeline env ev reg) = true := by
  unfold runPipeline
  simp only []
  repeat' split
  all_goals simp [pipeRun, pipeRegistered]

/-- C1: the registry entry is created at run start and after the run ends
by success, failure, cancellation, or an exception anywhere in the
pipeline, the session id is absent from the registry: starting from a
registry without the id, no handleAgentSession invocation leaves the id
registered, and whenever the run was invoked the entry had been created. -/
theorem session_registry_no_leak (env : CoordEnv) (ev : AgentSessionEvent)
    (reg : List String) (h : ev.sessionId ∉ reg) :
    ev.sessionId ∉ (handleAgentSession env ev reg).registry ∧
    ((handleAgentSession env ev reg).runInvoked = true →
      (handleAgentSession env ev reg).registered = true) := by
  by_cases hsig : ev.signal = some "stop"
  · unfold handleAgentSession
    rw [if_pos hsig]
    unfold stopSession
    rw [if_neg h]
    exact ⟨h, fun hh => by simp at hh⟩
  · obtain ⟨h1, h2, h3⟩ := handle_pipe_fields env ev reg hsig
    constructor
    · rw [h1]
      rcases runPipeline_registry_cases env ev reg with hc | hc <;> rw [hc]
      · exact h
      · exact not_mem_regErase _ _
    · intro hrun
      rw [h2]
      rw [h3] at hrun
      exact runPipeline_run_registered env ev reg hrun

/-- Witness for session_registry_no_leak: a concrete environment whose
run succeeds, starting from an empty registry. -/
theorem session_registry_no_leak_witness :
    "s1" ∉ (handleAgentSession
      ⟨[⟨some ⟨none⟩⟩], none, "/repo", .ok "/wt", .ok "", .ok ⟨true, "done", ""⟩,
        [], fun _ => .ok ()⟩
      ⟨"s1", "created", ⟨"i1", "ABC-1", "Title", none, "t"⟩, none, "", none⟩
      []).registry :=
  (session_registry_no_leak
    ⟨[⟨some ⟨none⟩⟩], none, "/repo", .ok "/wt", .ok "", .ok ⟨true, "done", ""⟩,
      [], fun _ => .ok ()⟩
    ⟨"s1", "created", ⟨"i1", "ABC-1", "Title", none, "t"⟩, none, "", none⟩
    [] (by decide)).1

/-- C2: a stop signal for a registered session invokes the run's
cancellation, removes the id from the registry and sends the terminal
stopped response; a stop for an unregistered id is a no-op that sends
nothing, changes nothing and never throws; and handleAgentSession routes
every stop-signal event to stopSession. -/
theorem stop_session_spec (env : CoordEnv) (sid : String) (reg : List String) :
    (sid ∈ reg →
      (stopSession env sid reg).stopCalled = true ∧
      (stopSession env sid reg).registry = regErase sid reg ∧
      (stopSession env sid reg).sent =
        [Activity.response "Stopped as requested."]) ∧
    (sid ∉ reg →
      stopSession env sid reg =
        { registry := reg, sent := [], stopCalled := false, registered := false,
          runInvoked := false, runDir := none, thrown := none }) ∧
    (∀ ev : AgentSessionEvent, ev.signal = some "stop" → ev.sessionId = sid →
      handleAgentSession env ev reg = stopSession env sid reg) := by
  refine ⟨fun hmem => ?_, fun hnot => ?_, fun ev hsig hid => ?_⟩
  · unfold stopSession
    rw [if_pos hmem]
    simp only []
    split <;> exact ⟨rfl, rfl, rfl⟩
  · unfold stopSession
    rw [if_neg hnot]
  · unfold handleAgentSession
    rw [if_pos hsig, hid]

/-- Witness for stop_session_spec: a registered and an unregistered stop
against a concrete environment. -/
theorem stop_session_spec_witness :
    (stopSession
      ⟨[], none, "/repo", .error "w", .error "p", .error "r", [], fun _ => .ok ()⟩
      "s1" ["s1"]).registry = regErase "s1" ["s1"] ∧
    stopSession
      ⟨[], none, "/repo", .error "w", .error "p", .error "r", [], fun _ => .ok ()⟩
      "s2" ["s1"] =
      { registry := ["s1"], sent := [], stopCalled := false, registered := false,
        runInvoked := false, runDir := none, thrown := none } :=
  ⟨((stop_session_spec
      ⟨[], none, "/repo", .error "w", .error "p", .error "r", [], fun _ => .ok ()⟩
      "s1" ["s1"]).1 (by decide)).2.1,
   (stop_session_spec
      ⟨[], none, "/repo", .error "w", .error "p", .error "r", [], fun _ => .ok ()⟩
      "s2" ["s1"]).2.1 (by decide)⟩

/-- C3: when worktree provisioning throws on a non-stop event, the run is
not aborted: it is invoked with the unmodified repository root as the
working directory and execution continues to the normal terminal
activity, with no exception propagated. -/
theorem worktree_fallback_spec (env : CoordEnv) (ev : AgentSessionEvent)
    (reg : List String) (agent : AgentConfig) (rest : List AgentConfig)
    (options : ClaudeOptions) (emsg : String) (res : RunResult)
    (hsig : ev.signal ≠ some "stop")
    (hagents : env.agents = agent :: rest)
    (hopts : agent.claudeOptions = some options)
    (hwt : env.worktreeResult = .error emsg)
    (hrun : env.runOutcome = .ok res)
    (hsend : ∀ a, env.clientSend a = .ok ()) :
    (handleAgentSession env ev reg).runInvoked = true ∧
    (handleAgentSession env ev reg).runDir = some env.repositoryPath ∧
    (handleAgentSession env ev reg).thrown = none ∧
    (handleAgentSession env ev reg).sent.getLast? = some
      (if res.success then
        Activity.response (if res.output = "" then "Tracked it down." else res.output)
      else
        Activity.err (if res.error = "" then "Unknown error occurred" else res.error)) := by
  unfold handleAgentSession
  rw [if_neg hsig]
  unfold runPipeline
  simp only [hsend, hagents, List.head?_cons, hopts, hwt, hrun]
  simp [List.getLast?_concat]
  rw [← List.cons_append, List.getLast?_concat]

/-- Witness for worktree_fallback_spec: a concrete environment whose
worktree creation throws while everything else succeeds. -/
theorem worktree_fallback_spec_witness :
    (handleAgentSession
      ⟨[⟨some ⟨none⟩⟩], none, "/repo", .error "not a git repository", .ok "",
        .ok ⟨true, "fixed it", ""⟩, [], fun _ => .ok ()⟩
      ⟨"s1", "created", ⟨"i1", "ABC-1", "Title", none, "t"⟩, none, "", none⟩
      []).runDir = some "/repo" :=
  (worktree_fallback_spec
    ⟨[⟨some ⟨none⟩⟩], none, "/repo", .error "not a git repository", .ok "",
      .ok ⟨true, "fixed it", ""⟩, [], fun _ => .ok ()⟩
    ⟨"s1", "created", ⟨"i1", "ABC-1", "Title", none, "t"⟩, none, "", none⟩
    [] ⟨some ⟨none⟩⟩ [] ⟨none⟩ "not a git repository" ⟨true, "fixed it", ""⟩
    (by decide) rfl rfl rfl rfl (fun _ => rfl)).2.1

/-- C8 (amended): for every non-stop inbound event and every collaborator
behavior, handleAgentSession propagates nothing to its caller, and when
the pipeline escapes with an uncaught exception it is converted into a
best-effort Processing-failed error activity appended to the attempted
sends, whose own send outcome is discarded (the quantification over every
clientSend behavior, including a throwing one, with thrown = none is the
swallow); on the stop-signal path, which runs outside the try block, a
failing send propagates. -/
theorem handle_nonstop_never_throws (env : CoordEnv) (ev : AgentSessionEvent)
    (reg : List String) (h : ev.signal ≠ some "stop") :
    (handleAgentSession env ev reg).thrown = none ∧
    (∀ (r : List String) (s : List Activity) (rg ri : Bool) (rd : Option String)
      (msg : String),
      runPipeline env ev reg = .failed r s rg ri rd msg →
      (handleAgentSession env ev reg).sent =
        s ++ [Activity.err ("Processing failed: " ++ msg)]) := by
  unfold handleAgentSession
  rw [if_neg h]
  constructor
  · rcases runPipeline env ev reg with ⟨r, s, rg, ri, rd⟩ | ⟨r, s, rg, ri, rd, m⟩
    · rfl
    · rfl
  · intro r s rg ri rd msg hp
    rw [hp]

/-- Witness for handle_nonstop_never_throws: a non-stop event against a
client whose every send throws; nothing propagates and the attempted trace
ends with the Processing-failed error activity. -/
theorem handle_nonstop_never_throws_witness :
    (handleAgentSession
      ⟨[], none, "/repo", .error "w", .error "p", .error "r", [],
        fun _ => .error "boom"⟩
      ⟨"s1", "created", ⟨"i1", "ABC-1", "Title", none, "t"⟩, none, "", none⟩
      ["s1"]).thrown = none ∧
    (handleAgentSession
      ⟨[], none, "/repo", .error "w", .error "p", .error "r", [],
        fun _ => .error "boom"⟩
      ⟨"s1", "created", ⟨"i1", "ABC-1", "Title", none, "t"⟩, none, "", none⟩
      ["s1"]).sent =
      [Activity.thought "Sniffing out the issue...",
       Activity.err "Processing failed: boom"] :=
  ⟨(handle_nonstop_never_throws
      ⟨[], none, "/repo", .error "w", .error "p", .error "r", [],
        fun _ => .error "boom"⟩
      ⟨"s1", "created", ⟨"i1", "ABC-1", "Title", none, "t"⟩, none, "", none⟩
      ["s1"] (by decide)).1,
   (handle_nonstop_never_throws
      ⟨[], none, "/repo", .error "w", .error "p", .error "r", [],
        fun _ => .error "boom"⟩
      ⟨"s1", "created", ⟨"i1", "ABC-1", "Title", none, "t"⟩, none, "", none⟩
      ["s1"] (by decide)).2
    ["s1"] [Activity.thought "Sniffing out the issue..."] false false none
    "boom" rfl⟩

/-- C8 counterexample: a stop-signal event for a registered session whose
terminal send throws makes handleAgentSession propagate the exception to
its caller, so the claim that it never propagates is false. -/
theorem handle_stop_throws_counterexample :
    (handleAgentSession
      ⟨[], none, "/repo", .error "w", .error "p", .error "r", [],
        fun _ => .error "boom"⟩
      ⟨"s1", "prompted", ⟨"i1", "ABC-1", "Title", none, "t"⟩, none, "", some "stop"⟩
      ["s1"]).thrown = some "boom" := rfl

/-- One session-machine step preserves the shared-runner field. -/
theorem applySessionOp_sharedRunner (st : SessionMachine) (op : SessionOp) :
    (applySessionOp st op).1.sharedRunner = st.sharedRunner := by
  cases op with
  | start sid handleId => rfl
  | stopReq sid =>
    simp only [applySessionOp]
    split <;> rfl

/-- One session-machine step preserves the invariant that every registry
entry references the shared runner. -/
theorem applySessionOp_entries (st : SessionMachine) (op : SessionOp)
    (hinv : ∀ e ∈ st.registry, e.2 = st.sharedRunner) :
    ∀ e ∈ (applySessionOp st op).1.registry, e.2 = st.sharedRunner := by
  cases op with
  | start sid handleId =>
    intro e he
    simp only [applySessionOp] at he
    rcases List.mem_cons.mp he with he | he
    · rw [he]
    · exact hinv e (List.mem_of_mem_filter he)
  | stopReq sid =>
    intro e he
    simp only [applySessionOp] at he
    split at he
    · exact hinv e (List.mem_of_mem_filter he)
    · exact hinv e he

/-- The shared-runner invariant holds along any operation sequence. -/
theorem applySessionOps_entries (ops : List SessionOp) (st : SessionMachine)
    (hinv : ∀ e ∈ st.registry, e.2 = st.sharedRunner) :
    ∀ e ∈ (applySessionOps st ops).registry, e.2 = st.sharedRunner := by
  induction ops generalizing st with
  | nil => exact hinv
  | cons op rest ih =>
    intro e he
    have h1 := applySessionOp_entries st op hinv
    have h2 := applySessionOp_sharedRunner st op
    have := ih (applySessionOp st op).1 (fun x hx => (h1 x hx).trans h2.symm)
    exact (this e he).trans h2


/-- C9: every entry ever stored in the registry references the single
shared runner, and with two sessions registered concurrently, a stop
request for either session id aborts the abort handle of whichever run
started last. -/
theorem shared_runner_cancellation :
    (∀ (r : Nat) (ops : List SessionOp),
      ∀ e ∈ (applySessionOps (initSessionMachine r) ops).registry, e.2 = r) ∧
    (∀ (st : SessionMachine) (s1 s2 : String) (h1 h2 : Nat),
      (applySessionOp
        (applySessionOp (applySessionOp st (.start s1 h1)).1 (.start s2 h2)).1
        (.stopReq s1)).2 = some h2 ∧
      (applySessionOp
        (applySessionOp (applySessionOp st (.start s1 h1)).1 (.start s2 h2)).1
        (.stopReq s2)).2 = some h2) := by
  constructor
  · intro r ops
    exact applySessionOps_entries ops (initSessionMachine r)
      (by intro e he; simp [initSessionMachine] at he)
  · intro st s1 s2 h1 h2
    constructor
    · show (applySessionOp
        ⟨st.sharedRunner,
          (s2, st.sharedRunner) ::
            ((s1, st.sharedRunner) :: st.registry.filter (fun e => e.1 ≠ s1)).filter
              (fun e => e.1 ≠ s2),
          some h2⟩ (.stopReq s1)).2 = some h2
      simp only [applySessionOp]
      rw [if_pos]
      simp only [List.find?_isSome]
      by_cases h12 : s2 = s1
      · exact ⟨(s2, st.sharedRunner), List.mem_cons_self _ _, by simp [h12]⟩
      · refine ⟨(s1, st.sharedRunner), List.mem_cons_of_mem _ ?_, by simp⟩
        refine List.mem_filter.mpr ⟨List.mem_cons_self _ _, ?_⟩
        simp only [decide_eq_true_eq]
        exact fun hh => h12 hh.symm
    · show (applySessionOp
        ⟨st.sharedRunner,
          (s2, st.sharedRunner) ::
            ((s1, st.sharedRunner) :: st.registry.filter (fun e => e.1 ≠ s1)).filter
              (fun e => e.1 ≠ s2),
          some h2⟩ (.stopReq s2)).2 = some h2
      simp only [applySessionOp]
      rw [if_pos]
      simp only [List.find?_isSome]
      exact ⟨(s2, st.sharedRunner), List.mem_cons_self _ _, by simp⟩

/-- Witness for shared_runner_cancellation: a concrete trace in which two
sessions register and stopping the first aborts the second run's handle. -/
theorem shared_runner_cancellation_witness :
    (("a", 7) : String × Nat).2 = 7 ∧
    (applySessionOp
      (applySessionOp (applySessionOp (initSessionMachine 7) (.start "a" 1)).1
        (.start "b" 2)).1
      (.stopReq "a")).2 = some 2 :=
  ⟨shared_runner_cancellation.1 7 [.start "a" 1] ("a", 7) (by decide),
   (shared_runner_cancellation.2 (initSessionMachine 7) "a" "b" 1 2).1⟩

end Sniff
